import Mathlib

/-!
# Verification of the Turing machine simulator (`turing.py`)

A shallow embedding of the simulator's core: the tape abstraction, the
rule table with wildcard-aware first-match lookup, the execution engine
(`step`, `run`, tape assignment / reset), and the hand-rolled character
level rule-file parser `_read_rules`.

Python exceptions are modelled explicitly: methods that may raise return
the (possibly mutated) receiver together with an optional error, matching
the fact that a raised exception in Python leaves any mutations made
before the raise in place.
-/

/-- The wildcard symbol, `TuringMachine.WILDCARD` in the source. -/
def WILDCARD : String := "*"

/-- Modelled from the spec: the `Tape` class lives in `tape.py`, which is
not among the sources (only `turing.py` is).  Per spec section 4.1 and
section 3 a Tape is a two-way-infinite sequence of symbols indexed by an
arbitrary integer: `get` returns the most recently written symbol at a
position, or the blank symbol `"_"` for a never-written position; `set`
never fails; `is_blank` is true exactly when the tape was constructed
from empty input.  We represent the write history as an association list
(most recent write first) plus the constructed-from-empty flag. -/
structure Tape where
  writes : List (Int × String)
  fromEmpty : Bool
deriving DecidableEq

/-- Modelled from the spec: constructing a Tape from an input string puts
the i-th character of the string at position i; a tape built from the
empty string has no content and `is_blank` holds. -/
def mkTape (s : String) : Tape :=
  { writes := s.toList.enum.map (fun ic => ((ic.1 : Int), String.singleton ic.2))
    fromEmpty := s.toList.isEmpty }

/-- Modelled from the spec: `get(position)` returns the stored symbol or
the blank symbol `"_"`; never fails. -/
def Tape.get (t : Tape) (p : Int) : String :=
  (((t.writes.find? (fun e => e.1 = p)).map (fun e => e.2))).getD "_"

/-- Modelled from the spec: `set(position, symbol)` stores `symbol` at
`position`; never fails.  New writes shadow older ones. -/
def Tape.set (t : Tape) (p : Int) (v : String) : Tape :=
  { t with writes := (p, v) :: t.writes }

/-- Modelled from the spec: `is_blank()` is true iff the tape was built
from empty input (`if not self._tape` in `turing.py` line 140). -/
def Tape.isBlank (t : Tape) : Bool :=
  t.fromEmpty

/-- A quintuple rule.  The parser produces 5-tuples of strings; the
engine reads the five positions as `str(r[0]) .. str(r[3])` and
`int(r[4])`, so we carry the direction as the integer the engine
extracts at `turing.py` line 158. -/
structure Rule where
  from_state : String
  match_symbol : String
  to_state : String
  write_symbol : String
  direction : Int
deriving DecidableEq

/-- Errors raised by `TuringMachine.step`: `TapeBlank` (line 141) and
`RuleNotFound(state, char)` (line 133), with the constructor payload. -/
inductive StepErr where
  | tapeBlank : StepErr
  | ruleNotFound (state : String) (char : String) : StepErr
deriving DecidableEq

/-- The engine state: configuration labels (`STATE_INIT`, `STATE_HALT`),
the rule table, and the machine/tracking state of `TuringMachine`
(`state`, `head`, `rule`, `_tape`, `stepc`, `head_moves`, `path`). -/
structure TuringMachine where
  rules : List Rule
  STATE_INIT : String
  STATE_HALT : String
  state : String
  head : Int
  rule : Option Rule
  tape : Tape
  stepc : Nat
  head_moves : Nat
  path : List String
deriving DecidableEq

/-- `find_rule` (`turing.py` lines 123-133): scan the rule list in order,
return the first rule whose `from_state` equals `state` and whose
`match_symbol` equals `scan` or is the wildcard; otherwise raise
`RuleNotFound(state, scan)`, modelled as the error payload. -/
def find_rule (rules : List Rule) (state : String) (scan : String) :
    Except (String × String) Rule :=
  match rules with
  | [] => .error (state, scan)
  | r :: rest =>
    if r.from_state = state ∧ (r.match_symbol = scan ∨ r.match_symbol = WILDCARD)
    then .ok r
    else find_rule rest state scan

/-- `step` (`turing.py` lines 135-170).  Mirrors the mutation order of
the Python method: the `TapeBlank` check comes first and leaves the
object untouched; `self.stepc += 1` happens *before* `find_rule`, so a
`RuleNotFound` raise leaves the machine with the incremented step count;
on success the scanned cell is overwritten (with the scanned symbol
itself when `write_symbol` is the wildcard), the state, head, move count
and path are updated.  The pair returns the post-call object and the
raised exception, if any. -/
def TuringMachine.step (m : TuringMachine) : TuringMachine × Option StepErr :=
  if m.tape.isBlank then
    (m, some .tapeBlank)
  else
    let m1 : TuringMachine := { m with stepc := m.stepc + 1 }
    let scan := m1.tape.get m1.head
    match find_rule m1.rules m1.state scan with
    | .error sc => (m1, some (.ruleNotFound sc.1 sc.2))
    | .ok r =>
      let replace := if r.write_symbol ≠ WILDCARD then r.write_symbol else scan
      ({ m1 with
          rule := some r
          tape := m1.tape.set m1.head replace
          state := r.to_state
          head := m1.head + r.direction
          head_moves := if r.direction ≠ 0 then m1.head_moves + 1 else m1.head_moves
          path := m1.path ++ [r.to_state] }, none)

/-- `reset` (`turing.py` lines 103-121): restore state and tracking
variables; the path restarts as `[STATE_INIT]`. -/
def TuringMachine.reset (m : TuringMachine) : TuringMachine :=
  { m with
      state := m.STATE_INIT
      head := 0
      rule := none
      stepc := 0
      head_moves := 0
      path := [m.STATE_INIT] }

/-- The `tape` property setter (`turing.py` lines 81-88): build a fresh
Tape from the input value, then `reset()`. -/
def TuringMachine.setTape (m : TuringMachine) (value : String) : TuringMachine :=
  TuringMachine.reset { m with tape := mkTape value }

/-- Outcome of `run`: normal return of the final tape (together with the
machine object as left by the loop), an exception propagated out of
`step`, or fuel exhaustion (the Python loop just keeps going). -/
inductive RunResult where
  | halted (tape : Tape) (m : TuringMachine) : RunResult
  | failed (m : TuringMachine) (e : StepErr) : RunResult
  | outOfFuel : RunResult
deriving DecidableEq

/-- `run` (`turing.py` lines 172-184): `while self.state != self.STATE_HALT:
self.step()`, then return the tape.  The loop condition is checked before
any step, so a machine already in the halting state returns at once.
Fuel bounds the number of iterations we unfold. -/
def TuringMachine.run (fuel : Nat) (m : TuringMachine) : RunResult :=
  if m.state = m.STATE_HALT then
    .halted m.tape m
  else
    match fuel with
    | 0 => .outOfFuel
    | n + 1 =>
      match m.step with
      | (m', none) => TuringMachine.run n m'
      | (m', some e) => .failed m' e

/-- `n` consecutive successful `step()` calls; `none` if any call raises. -/
def stepsN : Nat → TuringMachine → Option TuringMachine
  | 0, m => some m
  | n + 1, m =>
    match m.step with
    | (m', none) => stepsN n m'
    | (_, some _) => none

/-- The predicate of `find_rule`'s scan (`turing.py` line 130):
`str(r[0]) == state and (str(r[1]) == scan or str(r[1]) == WILDCARD)`. -/
def matchesRule (state : String) (scan : String) (r : Rule) : Prop :=
  r.from_state = state ∧ (r.match_symbol = scan ∨ r.match_symbol = WILDCARD)

instance (state scan : String) (r : Rule) : Decidable (matchesRule state scan r) := by
  unfold matchesRule
  infer_instance

/-! ## The rule-file parser (`_read_rules`, `turing.py` lines 286-380) -/

/-- A raw quintuple as the parser emits it: five string tokens. -/
def Rule5 : Type := String × String × String × String × String
deriving instance DecidableEq for Rule5

/-- The mutable closure state of `_read_rules`: accumulated rules and
configuration mapping, the tuple/symbol/config buffers, the symbol
counter `symc`, and the mode string (`std`, `cfg` or `cmt`).  The
configuration mapping is an association list in which an insert shadows
any earlier binding for the same key, matching dict assignment. -/
structure ParserState where
  rules : List Rule5
  cfg : List (String × String)
  tup_buf : List String
  sym_buf : String
  cfg_buf : String
  symc : Nat
  mode : String
deriving DecidableEq

/-- The parser's initial closure state (`turing.py` lines 294-303). -/
def initP : ParserState :=
  { rules := [], cfg := [], tup_buf := [], sym_buf := "", cfg_buf := ""
    symc := 0, mode := "std" }

/-- The character class of the regex `[-\w\*]` (`turing.py` line 311),
over the ASCII fragment of Python's `\w`. -/
def isSymChar (c : Char) : Bool :=
  c = '-' || c.isAlphanum || c = '_' || c = '*'

/-- The character class of the regex `[^\s\:]` (`turing.py` line 346),
over the common whitespace characters. -/
def isCfgChar (c : Char) : Bool :=
  !c.isWhitespace && c != ':'

/-- `dict[key] = value`: a later binding shadows an earlier one. -/
def cfgInsert (cfg : List (String × String)) (k : String) (v : String) :
    List (String × String) :=
  (k, v) :: cfg.filter (fun kv => kv.1 ≠ k)

/-- Dict lookup on the association list. -/
def cfgLookup (cfg : List (String × String)) (k : String) : Option String :=
  (cfg.find? (fun kv => kv.1 = k)).map (fun kv => kv.2)

/-- Turn the five-element tuple buffer into a quintuple
(`tuple(tup_buf)` at `turing.py` line 339). -/
def tupOf (l : List String) : Rule5 :=
  (l.getD 0 "", l.getD 1 "", l.getD 2 "", l.getD 3 "", l.getD 4 "")

/-- Flushing a completed symbol token in `std` mode (`turing.py` lines
327-340): append it to the tuple buffer, bump `symc`, and emit a rule
once five tokens have accumulated. -/
def flushSym (p : ParserState) : ParserState :=
  let tup := p.tup_buf ++ [p.sym_buf]
  let p1 : ParserState := { p with sym_buf := "", symc := p.symc + 1 }
  if tup.length = 5 then
    { p1 with rules := p1.rules ++ [tupOf tup], tup_buf := [] }
  else
    { p1 with tup_buf := tup }

/-- One invocation of the closure `state_reader` (`turing.py` lines
307-367) on character `char` with end-of-input flag `eof`.  The `std`
block is an `if`; the `cfg` block is a separate `if` (so a `:` that just
switched the mode to `cfg` is re-examined by the `cfg` block), and the
`cmt` block is its `elif`. -/
def state_reader (eof : Bool) (char : Char) (p : ParserState) : ParserState :=
  let p :=
    if p.mode = "std" then
      if isSymChar char ∧ ¬eof then
        { p with sym_buf := p.sym_buf.push char }
      else if char = ':' ∧ ¬eof then
        { p with cfg_buf := p.sym_buf.toLower, sym_buf := "", mode := "cfg" }
      else if p.sym_buf ≠ "" then
        flushSym p
      else if char = '#' then
        { p with mode := "cmt" }
      else p
    else p
  if p.mode = "cfg" then
    if isCfgChar char ∧ ¬eof then
      { p with sym_buf := p.sym_buf.push char }
    else if p.sym_buf ≠ "" then
      { p with cfg := cfgInsert p.cfg p.cfg_buf p.sym_buf
               cfg_buf := "", sym_buf := "", mode := "std" }
    else p
  else if p.mode = "cmt" then
    if char = '\n' then { p with mode := "std" } else p
  else p

/-- Errors observable from `_read_rules`: `IncorrectSymbolCount(count)`
(`turing.py` line 378), and the `NameError` Python raises when the input
is empty — the trailing `state_reader()` call then reads the loop
variable `char`, which was never assigned. -/
inductive ParseErr where
  | incorrectSymbolCount (count : Nat) : ParseErr
  | nameError : ParseErr
deriving DecidableEq

/-- The closure state after the character loop and the trailing
`eof = True; state_reader()` call, whose stale `char` is the last
character of the input; `none` on empty input (unbound `char`). -/
def finalP (input : String) : Option ParserState :=
  match input.toList with
  | [] => none
  | c :: cs =>
    some (state_reader true (cs.getLastD c)
      ((c :: cs).foldl (fun p ch => state_reader false ch p) initP))

/-- `_read_rules` (`turing.py` lines 286-380) on the full file text:
process every character, run the final flush, then fail with
`IncorrectSymbolCount(symc)` when `symc % 5 != 0`, else return the rule
list and the configuration mapping. -/
def read_rules (input : String) :
    Except ParseErr (List Rule5 × List (String × String)) :=
  match finalP input with
  | none => .error .nameError
  | some p =>
    if p.symc % 5 ≠ 0 then .error (.incorrectSymbolCount p.symc)
    else .ok (p.rules, p.cfg)

/-- The number of symbol tokens the parser consumed outside
configuration pairs: the final value of `symc`. -/
def symcOf (input : String) : Nat :=
  ((finalP input).map (fun p => p.symc)).getD 0

/-! ## Machine construction as in `__main__` (`turing.py` lines 420-435) -/

/-- Build a machine from the parser output as `__main__` does: the class
defaults `STATE_INIT = '1'`, `STATE_HALT = '0'` are overridden by the
configuration entries `init` and `halt` when present, before any tape is
assigned.  The remaining fields carry the class-level initial values
(`state = '1'`, `rule = None`, counters zero, empty path); every claim
about the running machine goes through `setTape`, which resets them, as
`__main__` always assigns `turing.tape` before stepping. -/
def mkMachine (rules : List Rule) (cfg : List (String × String)) :
    TuringMachine :=
  { rules := rules
    STATE_INIT := (cfgLookup cfg "init").getD "1"
    STATE_HALT := (cfgLookup cfg "halt").getD "0"
    state := "1"
    head := 0
    rule := none
    tape := mkTape ""
    stepc := 0
    head_moves := 0
    path := [] }

/-! ## Concrete machines and parser states used to instantiate the
theorems on closed inputs -/

/-- A machine whose only rule moves the head by `2`. -/
def mDir2 : TuringMachine :=
  TuringMachine.setTape (mkMachine [Rule.mk "1" "a" "1" "b" 2] []) "a"

/-- A machine with an empty rule table and the non-blank tape `"a"`. -/
def mNoRule : TuringMachine :=
  TuringMachine.setTape (mkMachine [] []) "a"

/-- A machine whose tape was built from the empty string. -/
def mBlank : TuringMachine :=
  TuringMachine.setTape (mkMachine [] []) ""

/-- A machine whose only rule has wildcard write symbol. -/
def mWild : TuringMachine :=
  TuringMachine.setTape (mkMachine [Rule.mk "1" "a" "1" "*" 0] []) "a"

/-- A machine built with configuration overrides `init: A`, `halt: Z`. -/
def mOverride : TuringMachine :=
  TuringMachine.setTape
    (mkMachine [Rule.mk "A" "*" "Z" "*" 0] [("init", "A"), ("halt", "Z")]) "abc"

/-- A machine already sitting in its halting state, with non-trivial
tracking values. -/
def mHalted : TuringMachine :=
  { rules := []
    STATE_INIT := "1"
    STATE_HALT := "0"
    state := "0"
    head := 5
    rule := none
    tape := mkTape "x"
    stepc := 3
    head_moves := 1
    path := ["1", "0"] }

/-- A parser state in symbol mode with an empty token buffer. -/
def pStd : ParserState :=
  { initP with symc := 2, tup_buf := ["a", "b"] }

/-- A parser state in symbol mode with a non-empty token buffer. -/
def pBuf : ParserState :=
  { initP with sym_buf := "ab" }

/-- A parser state in comment mode. -/
def pCmt : ParserState :=
  { initP with mode := "cmt" }

/-! ## Helper lemmas -/

theorem Tape.get_set_self (t : Tape) (p : Int) (v : String) :
    (t.set p v).get p = v := by
  simp [Tape.get, Tape.set]

theorem Tape.get_set_ne (t : Tape) (p q : Int) (v : String) (h : q ≠ p) :
    (t.set p v).get q = t.get q := by
  simp only [Tape.get, Tape.set, List.find?]
  rw [decide_eq_false (by exact fun hpq => h hpq.symm)]

theorem step_of_blank (m : TuringMachine) (h : m.tape.isBlank = true) :
    m.step = (m, some .tapeBlank) := by
  simp [TuringMachine.step, h]

theorem step_of_err (m : TuringMachine) (sc : String × String)
    (h1 : m.tape.isBlank = false)
    (h2 : find_rule m.rules m.state (m.tape.get m.head) = .error sc) :
    m.step = ({ m with stepc := m.stepc + 1 }, some (.ruleNotFound sc.1 sc.2)) := by
  simp only [TuringMachine.step, h1, Bool.false_eq_true, if_false]
  simp only [h2]

theorem step_of_ok (m : TuringMachine) (r : Rule)
    (h1 : m.tape.isBlank = false)
    (h2 : find_rule m.rules m.state (m.tape.get m.head) = .ok r) :
    m.step =
      ({ m with
          stepc := m.stepc + 1
          rule := some r
          tape := m.tape.set m.head
            (if r.write_symbol ≠ WILDCARD then r.write_symbol else m.tape.get m.head)
          state := r.to_state
          head := m.head + r.direction
          head_moves := if r.direction ≠ 0 then m.head_moves + 1 else m.head_moves
          path := m.path ++ [r.to_state] }, none) := by
  simp only [TuringMachine.step, h1, Bool.false_eq_true, if_false]
  simp only [h2]

/-- C1 counterexample: on the machine with an empty rule table and tape
`"a"`, `step()` raises `RuleNotFound("1", "a")` and yet `stepc` has
changed from 0 to 1, because `self.stepc += 1` runs before `find_rule`
(`turing.py` line 143 vs line 149). -/
theorem step_atomic_cex :
    mNoRule.step.2 = some (.ruleNotFound "1" "a") ∧
    mNoRule.stepc = 0 ∧ mNoRule.step.1.stepc = 1 := by
  refine ⟨rfl, rfl, rfl⟩

/-- C1 amended: if `step()` raises `TapeBlank` nothing at all is mutated;
if it raises `RuleNotFound`, `step_count` has been incremented by one,
while `head`, `current_state`, `path`, `last_rule`, `head_move_count`
and every Tape cell are unchanged from before the call. -/
theorem step_failure_frame (m : TuringMachine) :
    (m.tape.isBlank = true → m.step = (m, some .tapeBlank)) ∧
    (∀ s c m', m.step = (m', some (.ruleNotFound s c)) →
      m'.stepc = m.stepc + 1 ∧ m'.head = m.head ∧ m'.state = m.state ∧
      m'.path = m.path ∧ m'.rule = m.rule ∧ m'.head_moves = m.head_moves ∧
      m'.tape = m.tape ∧ ∀ p, m'.tape.get p = m.tape.get p) := by
  refine ⟨step_of_blank m, ?_⟩
  intro s c m' h
  cases hb : m.tape.isBlank with
  | true =>
    rw [step_of_blank m hb] at h
    simp at h
  | false =>
    cases hf : find_rule m.rules m.state (m.tape.get m.head) with
    | ok r =>
      rw [step_of_ok m r hb hf] at h
      simp at h
    | error sc =>
      rw [step_of_err m sc hb hf] at h
      rw [Prod.mk.injEq] at h
      obtain ⟨h1, -⟩ := h
      rw [← h1]
      exact ⟨rfl, rfl, rfl, rfl, rfl, rfl, rfl, fun p => rfl⟩

/-- C1 witness: the amended failure-frame theorem applied to a machine
with a blank tape and to a machine whose lookup fails. -/
theorem step_failure_frame_witness :
    mBlank.step = (mBlank, some .tapeBlank) ∧
    (mNoRule.step.1.stepc = mNoRule.stepc + 1 ∧
      mNoRule.step.1.head = mNoRule.head ∧
      mNoRule.step.1.state = mNoRule.state ∧
      mNoRule.step.1.path = mNoRule.path ∧
      mNoRule.step.1.rule = mNoRule.rule ∧
      mNoRule.step.1.head_moves = mNoRule.head_moves ∧
      mNoRule.step.1.tape = mNoRule.tape ∧
      ∀ p, mNoRule.step.1.tape.get p = mNoRule.tape.get p) :=
  ⟨(step_failure_frame mBlank).1 rfl,
   (step_failure_frame mNoRule).2 "1" "a" mNoRule.step.1 rfl⟩

/-- C2 counterexample: the rule `("1","a","1","b",2)` applied by a
successful `step()` moves the head from 0 to 2 — by the full magnitude
of `direction`, not by `sign(direction)` and not by at most one cell
(`self.head += head_direction`, `turing.py` line 161). -/
theorem step_head_sign_cex :
    mDir2.step.2 = none ∧
    mDir2.step.1.rule = some (Rule.mk "1" "a" "1" "b" 2) ∧
    mDir2.head = 0 ∧ mDir2.step.1.head = 2 ∧
    mDir2.step.1.head ≠ mDir2.head + 1 ∧
    mDir2.step.1.head ≠ mDir2.head - 1 ∧
    mDir2.step.1.head ≠ mDir2.head := by
  refine ⟨rfl, rfl, rfl, rfl, by decide, by decide, by decide⟩

/-- C2 amended: a successful `step()` applying rule `r` sets
`current_state` to `r.to_state`, changes `head` by exactly the signed
integer value of `r.direction` (its full magnitude), increments
`head_move_count` if and only if `r.direction` is non-zero, and records
`r` as `last_rule`. -/
theorem step_success_update (m : TuringMachine) (r : Rule)
    (h1 : m.tape.isBlank = false)
    (h2 : find_rule m.rules m.state (m.tape.get m.head) = .ok r) :
    m.step.2 = none ∧
    m.step.1.state = r.to_state ∧
    m.step.1.head = m.head + r.direction ∧
    m.step.1.head_moves =
      (if r.direction ≠ 0 then m.head_moves + 1 else m.head_moves) ∧
    m.step.1.rule = some r := by
  rw [step_of_ok m r h1 h2]
  exact ⟨rfl, rfl, rfl, rfl, rfl⟩

/-- C2 witness: the amended update theorem at the machine whose rule has
direction 2. -/
theorem step_success_update_witness :
    mDir2.step.2 = none ∧
    mDir2.step.1.state = (Rule.mk "1" "a" "1" "b" 2).to_state ∧
    mDir2.step.1.head = mDir2.head + (Rule.mk "1" "a" "1" "b" 2).direction ∧
    mDir2.step.1.head_moves =
      (if (Rule.mk "1" "a" "1" "b" 2).direction ≠ 0
        then mDir2.head_moves + 1 else mDir2.head_moves) ∧
    mDir2.step.1.rule = some (Rule.mk "1" "a" "1" "b" 2) :=
  step_success_update mDir2 (Rule.mk "1" "a" "1" "b" 2) rfl rfl

/-- C4: a successful `step()` writes `tape.set(head, write)` with
`write = scan` when the applied rule's `write_symbol` is the wildcard —
so every cell, in particular the scanned one, reads unchanged — and
`write = write_symbol` otherwise (`turing.py` lines 153-154). -/
theorem step_wildcard_write (m : TuringMachine) (r : Rule)
    (h1 : m.tape.isBlank = false)
    (h2 : find_rule m.rules m.state (m.tape.get m.head) = .ok r) :
    m.step.1.tape =
      m.tape.set m.head
        (if r.write_symbol ≠ WILDCARD then r.write_symbol
         else m.tape.get m.head) ∧
    (r.write_symbol = WILDCARD →
      ∀ x, m.tape.get m.head = x → ∀ p, m.step.1.tape.get p = m.tape.get p) ∧
    (r.write_symbol ≠ WILDCARD → m.step.1.tape.get m.head = r.write_symbol) := by
  rw [step_of_ok m r h1 h2]
  refine ⟨rfl, ?_, ?_⟩
  · intro hw x hx p
    show (m.tape.set m.head
      (if r.write_symbol ≠ WILDCARD then r.write_symbol
       else m.tape.get m.head)).get p = m.tape.get p
    rw [if_neg (by simp [hw])]
    by_cases hp : p = m.head
    · subst hp
      rw [Tape.get_set_self]
    · rw [Tape.get_set_ne _ _ _ _ hp]
  · intro hw
    show (m.tape.set m.head
      (if r.write_symbol ≠ WILDCARD then r.write_symbol
       else m.tape.get m.head)).get m.head = r.write_symbol
    rw [if_pos hw, Tape.get_set_self]

/-- C4 witness: the wildcard-write theorem at a machine whose rule writes
the wildcard over the scanned symbol `"a"`: the scanned cell (position 0)
and an untouched cell (position 7) both read unchanged. -/
theorem step_wildcard_write_witness :
    mWild.step.1.tape.get 0 = mWild.tape.get 0 ∧
    mWild.step.1.tape.get 7 = mWild.tape.get 7 :=
  ⟨(step_wildcard_write mWild (Rule.mk "1" "a" "1" "*" 0) rfl rfl).2.1
      rfl "a" rfl 0,
   (step_wildcard_write mWild (Rule.mk "1" "a" "1" "*" 0) rfl rfl).2.1
      rfl "a" rfl 7⟩

/-- C3: for every rule table, state and symbol, `find_rule(state, symbol)`
returns the earliest rule in insertion order whose `from_state` equals
`state` exactly and whose `match_symbol` equals `symbol` exactly or is
the wildcard symbol, and raises `RuleNotFound(state, symbol)` — with
exactly that payload — if and only if no rule in the table satisfies the
predicate. -/
theorem find_rule_first_match (rules : List Rule) (s c : String) :
    (∀ r, find_rule rules s c = .ok r ↔
      ∃ l1 l2, rules = l1 ++ r :: l2 ∧ matchesRule s c r ∧
        ∀ r' ∈ l1, ¬ matchesRule s c r') ∧
    (find_rule rules s c = .error (s, c) ↔ ∀ r ∈ rules, ¬ matchesRule s c r) ∧
    (∀ e, find_rule rules s c = .error e → e = (s, c)) := by
  induction rules with
  | nil =>
    refine ⟨?_, ?_, ?_⟩
    · intro r
      constructor
      · intro h
        exact absurd h (by simp [find_rule])
      · rintro ⟨l1, l2, habs, -, -⟩
        exact absurd habs (by simp)
    · simp [find_rule]
    · intro e he
      simp only [find_rule, Except.error.injEq] at he
      exact he.symm
  | cons r0 rest ih =>
    obtain ⟨ih1, ih2, ih3⟩ := ih
    by_cases h0 : matchesRule s c r0
    · have hcond : r0.from_state = s ∧
          (r0.match_symbol = c ∨ r0.match_symbol = WILDCARD) := h0
      refine ⟨?_, ?_, ?_⟩
      · intro r
        simp only [find_rule, if_pos hcond, Except.ok.injEq]
        constructor
        · intro h
          exact ⟨[], rest, by simp [h], h ▸ h0, by simp⟩
        · rintro ⟨l1, l2, heq, hr, hl1⟩
          match l1, heq with
          | [], heq =>
            exact (List.cons.injEq _ _ _ _ ▸ heq).1
          | r1 :: l1t, heq =>
            have hmem : r0 ∈ r1 :: l1t := by
              have : r0 = r1 := (List.cons.injEq _ _ _ _ ▸ heq).1
              simp [this]
            exact absurd h0 (hl1 r0 hmem)
      · simp only [find_rule, if_pos hcond]
        constructor
        · intro habs
          exact absurd habs (by simp)
        · intro hall
          exact absurd h0 (hall r0 (by simp))
      · intro e he
        simp only [find_rule, if_pos hcond] at he
        exact absurd he (by simp)
    · have hcond : ¬(r0.from_state = s ∧
          (r0.match_symbol = c ∨ r0.match_symbol = WILDCARD)) := h0
      refine ⟨?_, ?_, ?_⟩
      · intro r
        simp only [find_rule, if_neg hcond]
        rw [ih1 r]
        constructor
        · rintro ⟨l1, l2, heq, hr, hl1⟩
          refine ⟨r0 :: l1, l2, by simp [heq], hr, ?_⟩
          intro r' hr'
          rcases List.mem_cons.mp hr' with h | h
          · exact h ▸ h0
          · exact hl1 r' h
        · rintro ⟨l1, l2, heq, hr, hl1⟩
          match l1, heq with
          | [], heq =>
            have : r0 = r := (List.cons.injEq _ _ _ _ ▸ heq).1
            exact absurd (this ▸ hr) h0
          | r1 :: l1t, heq =>
            have h1 : rest = l1t ++ r :: l2 := (List.cons.injEq _ _ _ _ ▸ heq).2
            refine ⟨l1t, l2, h1, hr, ?_⟩
            intro r' h'
            exact hl1 r' (List.mem_cons_of_mem _ h')
      · simp only [find_rule, if_neg hcond]
        rw [ih2, List.forall_mem_cons]
        simp [h0]
      · intro e he
        simp only [find_rule, if_neg hcond] at he
        exact ih3 e he

/-- C3 witness: the spec's own first-match-wins example — with rules
`[(S,"0",...), (S,"*",...)]` in that order, `find_rule(S,"0")` returns
the first rule, never the second. -/
theorem find_rule_first_match_witness :
    ∃ l1 l2,
      [Rule.mk "S" "0" "T" "x" 1, Rule.mk "S" "*" "U" "y" 1] =
        l1 ++ Rule.mk "S" "0" "T" "x" 1 :: l2 ∧
      matchesRule "S" "0" (Rule.mk "S" "0" "T" "x" 1) ∧
      ∀ r' ∈ l1, ¬ matchesRule "S" "0" r' :=
  ((find_rule_first_match
      [Rule.mk "S" "0" "T" "x" 1, Rule.mk "S" "*" "U" "y" 1] "S" "0").1
    (Rule.mk "S" "0" "T" "x" 1)).mp rfl

/-- C8: assigning a new tape (the `tape` setter, `turing.py` 81-88)
replaces the owned Tape wholesale with one built from the input string —
the empty string included, since `s` is arbitrary — and resets every
MachineState field: `current_state` to the initial label, `head` to 0,
`step_count` and `head_move_count` to 0, `path` to `[initial label]`,
and `last_rule` to none; the rule table and configuration labels are
kept. -/
theorem setTape_resets (m : TuringMachine) (s : String) :
    (m.setTape s).tape = mkTape s ∧
    (m.setTape s).state = m.STATE_INIT ∧
    (m.setTape s).head = 0 ∧
    (m.setTape s).stepc = 0 ∧
    (m.setTape s).head_moves = 0 ∧
    (m.setTape s).path = [m.STATE_INIT] ∧
    (m.setTape s).rule = none ∧
    (m.setTape s).rules = m.rules ∧
    (m.setTape s).STATE_INIT = m.STATE_INIT ∧
    (m.setTape s).STATE_HALT = m.STATE_HALT :=
  ⟨rfl, rfl, rfl, rfl, rfl, rfl, rfl, rfl, rfl, rfl⟩

theorem step_success_fields (m m' : TuringMachine) (h : m.step = (m', none)) :
    m'.path = m.path ++ [m'.state] ∧ m'.stepc = m.stepc + 1 ∧
    m'.STATE_INIT = m.STATE_INIT ∧ m'.STATE_HALT = m.STATE_HALT := by
  cases hb : m.tape.isBlank with
  | true =>
    rw [step_of_blank m hb] at h
    simp at h
  | false =>
    cases hf : find_rule m.rules m.state (m.tape.get m.head) with
    | error sc =>
      rw [step_of_err m sc hb hf] at h
      simp at h
    | ok r =>
      rw [step_of_ok m r hb hf] at h
      rw [Prod.mk.injEq] at h
      obtain ⟨h1, -⟩ := h
      rw [← h1]
      exact ⟨rfl, rfl, rfl, rfl⟩

theorem stepsN_inv (L : String) : ∀ (n : Nat) (m m' : TuringMachine),
    stepsN n m = some m' →
    m.path.length = m.stepc + 1 → m.path.head? = some L →
    m.path.getLast? = some m.state →
    m'.path.length = m'.stepc + 1 ∧ m'.path.head? = some L ∧
      m'.path.getLast? = some m'.state := by
  intro n
  induction n with
  | zero =>
    intro m m' h h1 h2 h3
    cases h
    exact ⟨h1, h2, h3⟩
  | succ n ih =>
    intro m m' h h1 h2 h3
    rw [stepsN] at h
    rcases hs : m.step with ⟨m1, e⟩
    rw [hs] at h
    cases e with
    | some e => cases h
    | none =>
      obtain ⟨hp, hc, -, -⟩ := step_success_fields m m1 hs
      refine ih m1 m' h ?_ ?_ ?_
      · rw [hp, hc, List.length_append, h1]
        rfl
      · rw [hp, List.head?_append, h2]
        rfl
      · rw [hp, List.getLast?_concat]

/-- C9: after a tape assignment followed by any number of successful
`step()` calls, the path has length `step_count + 1`, its first element
is the initial state label, and its last element equals
`current_state`. -/
theorem path_invariant (m : TuringMachine) (s : String) (n : Nat)
    (m' : TuringMachine) (h : stepsN n (m.setTape s) = some m') :
    m'.path.length = m'.stepc + 1 ∧
    m'.path.head? = some m.STATE_INIT ∧
    m'.path.getLast? = some m'.state :=
  stepsN_inv m.STATE_INIT n (m.setTape s) m' h rfl rfl rfl

/-- C9 witness: one successful step on a freshly assigned tape. -/
theorem path_invariant_witness :
    mDir2.step.1.path.length = mDir2.step.1.stepc + 1 ∧
    mDir2.step.1.path.head? = some "1" ∧
    mDir2.step.1.path.getLast? = some mDir2.step.1.state :=
  path_invariant (mkMachine [Rule.mk "1" "a" "1" "b" 2] []) "a" 1
    mDir2.step.1 rfl

/-- C10: if `current_state` already equals the halting label when `run()`
is called, the `while` condition (`turing.py` line 178) fails at once and
`run()` returns the owned Tape with the machine object — every
MachineState field and every Tape cell — exactly as it was, without
invoking `step()` (the result holds even with zero fuel). -/
theorem run_halted_immediate (fuel : Nat) (m : TuringMachine)
    (h : m.state = m.STATE_HALT) :
    TuringMachine.run fuel m = .halted m.tape m := by
  cases fuel <;> simp [TuringMachine.run, h]

/-- C10 witness: a machine resting in its halting state with non-trivial
counters returns its tape unchanged. -/
theorem run_halted_immediate_witness :
    TuringMachine.run 0 mHalted = .halted mHalted.tape mHalted :=
  run_halted_immediate 0 mHalted rfl

theorem run_halted_inv : ∀ (fuel : Nat) (m : TuringMachine) (t : Tape)
    (mf : TuringMachine), TuringMachine.run fuel m = .halted t mf →
    mf.state = mf.STATE_HALT ∧ mf.STATE_HALT = m.STATE_HALT ∧ t = mf.tape := by
  intro fuel
  induction fuel with
  | zero =>
    intro m t mf h
    by_cases hh : m.state = m.STATE_HALT
    · simp only [TuringMachine.run, if_pos hh, RunResult.halted.injEq] at h
      obtain ⟨h1, h2⟩ := h
      rw [← h1, ← h2]
      exact ⟨hh, rfl, rfl⟩
    · simp [TuringMachine.run, hh] at h
  | succ n ih =>
    intro m t mf h
    by_cases hh : m.state = m.STATE_HALT
    · simp only [TuringMachine.run, if_pos hh, RunResult.halted.injEq] at h
      obtain ⟨h1, h2⟩ := h
      rw [← h1, ← h2]
      exact ⟨hh, rfl, rfl⟩
    · simp only [TuringMachine.run, if_neg hh] at h
      rcases hs : m.step with ⟨m1, e⟩
      rw [hs] at h
      cases e with
      | some e => simp at h
      | none =>
        obtain ⟨a, b, c⟩ := ih m1 t mf h
        obtain ⟨-, -, -, hhalt⟩ := step_success_fields m m1 hs
        exact ⟨a, b.trans hhalt, c⟩

/-- C7: after building a machine from a rule file whose configuration
maps `init` to `hi` and `halt` to `hh` (`turing.py` lines 431-435) and
assigning a tape, the machine's labels are the overridden ones, any
normal return of `run()` is the final machine's Tape with
`current_state` equal to the overridden halting label, and the loop
condition of `run()` (line 178) is satisfied exactly by the overridden
label: a machine at the overridden label returns at once with no fuel,
while one at the default label `"0"` does not. -/
theorem run_config_override (rules : List Rule) (cfg : List (String × String))
    (s : String) (hi hh : String)
    (h1 : cfgLookup cfg "init" = some hi)
    (h2 : cfgLookup cfg "halt" = some hh)
    (h3 : hh ≠ "0") :
    ((mkMachine rules cfg).setTape s).STATE_INIT = hi ∧
    ((mkMachine rules cfg).setTape s).STATE_HALT = hh ∧
    ((mkMachine rules cfg).setTape s).state = hi ∧
    (∀ fuel t mf,
      TuringMachine.run fuel ((mkMachine rules cfg).setTape s) = .halted t mf →
      mf.state = hh ∧ t = mf.tape) ∧
    (∀ m' : TuringMachine, m'.STATE_HALT = hh → m'.state = hh →
      TuringMachine.run 0 m' = .halted m'.tape m') ∧
    (∀ m' : TuringMachine, m'.STATE_HALT = hh → m'.state = "0" →
      TuringMachine.run 0 m' = .outOfFuel) := by
  have hInit : ((mkMachine rules cfg).setTape s).STATE_INIT = hi := by
    simp [TuringMachine.setTape, TuringMachine.reset, mkMachine, h1]
  have hHalt : ((mkMachine rules cfg).setTape s).STATE_HALT = hh := by
    simp [TuringMachine.setTape, TuringMachine.reset, mkMachine, h2]
  refine ⟨hInit, hHalt, hInit, ?_, ?_, ?_⟩
  · intro fuel t mf h
    obtain ⟨a, b, c⟩ := run_halted_inv fuel _ t mf h
    exact ⟨a.trans (b.trans hHalt), c⟩
  · intro m' hm1 hm2
    exact run_halted_immediate 0 m' (hm2.trans hm1.symm)
  · intro m' hm1 hm2
    have : ¬ m'.state = m'.STATE_HALT := by
      rw [hm1, hm2]
      exact fun hc => h3 hc.symm
    simp [TuringMachine.run, this]

/-- C7 witness: the override theorem at the machine built from the
configuration `init: A`, `halt: Z` with input tape `"abc"`. -/
theorem run_config_override_witness :
    mOverride.STATE_INIT = "A" ∧
    mOverride.STATE_HALT = "Z" ∧
    mOverride.state = "A" ∧
    (∀ fuel t mf, TuringMachine.run fuel mOverride = .halted t mf →
      mf.state = "Z" ∧ t = mf.tape) ∧
    (∀ m' : TuringMachine, m'.STATE_HALT = "Z" → m'.state = "Z" →
      TuringMachine.run 0 m' = .halted m'.tape m') ∧
    (∀ m' : TuringMachine, m'.STATE_HALT = "Z" → m'.state = "0" →
      TuringMachine.run 0 m' = .outOfFuel) :=
  run_config_override [Rule.mk "A" "*" "Z" "*" 0]
    [("init", "A"), ("halt", "Z")] "abc" "A" "Z" rfl rfl (by decide)

/-- C5: `_read_rules` raises `IncorrectSymbolCount(count)` if and only
if the number of symbol tokens consumed outside configuration pairs (the
final `symc`, `turing.py` line 377) is not a multiple of five, and the
reported count is exactly that token count.  In particular a file with
exactly 7 non-configuration symbol tokens fails with
`IncorrectSymbolCount(7)`, whether or not a configuration pair is also
present (its key and value tokens are not counted). -/
theorem incorrect_symbol_count_iff :
    (∀ (input : String) (n : Nat),
      read_rules input = .error (.incorrectSymbolCount n) ↔
      (symcOf input % 5 ≠ 0 ∧ n = symcOf input)) ∧
    read_rules "a b c d e f g" = .error (.incorrectSymbolCount 7) ∧
    read_rules "init: A\na b c d e f g\n" =
      .error (.incorrectSymbolCount 7) := by
  refine ⟨?_, rfl, rfl⟩
  intro input n
  unfold read_rules symcOf
  cases h : finalP input with
  | none => simp
  | some p =>
    by_cases h5 : p.symc % 5 = 0
    · simp [h5]
    · simp [h5, eq_comm]

/-- C6 counterexample: in the input `"a#b c d e\n"` the `#` is met while
the token buffer holds `"a"`; the claim says everything from the `#` to
the newline is discarded and contributes no symbol tokens, yet the
parser consumes `b c d e` as four further tokens and builds the complete
rule `("a","b","c","d","e")` from them (`turing.py` lines 327-343: the
`elif sym_buf` flush precedes the `elif char == '#'` comment branch). -/
theorem comment_mode_cex :
    read_rules "a#b c d e\n" = .ok ([("a", "b", "c", "d", "e")], []) ∧
    symcOf "a#b c d e\n" = 5 :=
  ⟨rfl, rfl⟩

/-- C6 amended: a `#` read in symbol mode begins a line comment only
when the token buffer is empty — mode switches to comment mode, where
every character up to and including the next newline is discarded
without touching the buffers, counters, rules or configuration, and the
newline returns the parser to symbol mode; a `#` read while the buffer
is non-empty instead flushes the buffer as a completed symbol token and
parsing stays in symbol mode. -/
theorem comment_mode_amended (p : ParserState) (c : Char) :
    (p.mode = "std" → p.sym_buf = "" →
      state_reader false '#' p = { p with mode := "cmt" }) ∧
    (p.mode = "cmt" → state_reader false c p =
      (if c = '\n' then { p with mode := "std" } else p)) ∧
    (p.mode = "std" → p.sym_buf ≠ "" →
      state_reader false '#' p = flushSym p) := by
  have hsym : isSymChar '#' = false := by decide
  refine ⟨?_, ?_, ?_⟩
  · intro h1 h2
    simp [state_reader, h1, h2, hsym]
  · intro h1
    have hstd : p.mode ≠ "std" := by
      rw [h1]
      decide
    have hcfg : p.mode ≠ "cfg" := by
      rw [h1]
      decide
    by_cases hnl : c = '\n'
    · simp [state_reader, h1, hstd, hcfg, hnl]
    · simp [state_reader, h1, hstd, hcfg, hnl]
  · intro h1 h2
    have hmode : (flushSym p).mode = p.mode := by
      show (if (p.tup_buf ++ [p.sym_buf]).length = 5 then _ else _ : ParserState).mode = p.mode
      split <;> rfl
    simp [state_reader, h1, h2, hsym, hmode]

/-- C6 witness: the amended comment behaviour at concrete parser states:
a `#` on an empty buffer enters comment mode, a non-newline character in
comment mode is discarded, and a `#` on a non-empty buffer flushes the
token. -/
theorem comment_mode_amended_witness :
    state_reader false '#' pStd = { pStd with mode := "cmt" } ∧
    state_reader false 'x' pCmt =
      (if ('x' = '\n') then { pCmt with mode := "std" } else pCmt) ∧
    state_reader false '#' pBuf = flushSym pBuf :=
  ⟨(comment_mode_amended pStd 'x').1 rfl rfl,
   (comment_mode_amended pCmt 'x').2.1 rfl,
   (comment_mode_amended pBuf 'x').2.2 rfl (by decide)⟩
